import Mathlib

/-!
Shallow embedding of the A2A agent-coordination system
(`src/A2A`: `protocol/a2a_protocol.py`, `protocol/agent_card.py`,
`protocol/task.py`, `registry/registry.py`, `agents/base_agent.py`),
with theorems settling the frozen claims about it.

Modelling conventions:
* timestamps (Python `datetime`, stored as ISO-8601 strings whose
  lexicographic order agrees with chronological order for UTC values)
  are rationals `ℚ`;
* Python floats are rationals `ℚ`;
* opaque JSON-like maps (`Dict[str, Any]` payloads, parameters,
  results) are association lists `PMap`;
* Python exceptions raised by user-supplied handler code are values of
  `Except String α`: a handler that raises returns `.error msg`;
* the DynamoDB table behind `AgentRegistry` is a list of items in the
  scan order of the store (arbitrary but fixed); `put_item` replaces the
  item with the same key, `update_item` with
  `ConditionExpression="attribute_exists(agent_id)"` fails when the key
  is absent and otherwise SETs exactly the named attributes, and
  `scan` with `Limit=n` evaluates only the first `n` items of the table
  and applies the filter expression to those evaluated items
  (AWS-documented semantics: `Limit` bounds the number of items
  examined, not the number of matching items returned).
-/

namespace A2A

/-- `CapabilityType` enum from `protocol/a2a_protocol.py`. -/
inductive CapabilityType where
  | text_processing
  | image_processing
  | data_analysis
  | web_scraping
  | api_integration
  | machine_learning
  | file_processing
  | database_operations
  | custom
deriving DecidableEq, Repr

/-- The `.value` string of a `CapabilityType` member. -/
def CapabilityType.value : CapabilityType → String
  | .text_processing => "text_processing"
  | .image_processing => "image_processing"
  | .data_analysis => "data_analysis"
  | .web_scraping => "web_scraping"
  | .api_integration => "api_integration"
  | .machine_learning => "machine_learning"
  | .file_processing => "file_processing"
  | .database_operations => "database_operations"
  | .custom => "custom"

/-- `TaskStatus` enum from `protocol/a2a_protocol.py`. -/
inductive TaskStatus where
  | pending
  | in_progress
  | completed
  | failed
  | cancelled
deriving DecidableEq, Repr

/-- The `.value` string of a `TaskStatus` member. -/
def TaskStatus.value : TaskStatus → String
  | .pending => "pending"
  | .in_progress => "in_progress"
  | .completed => "completed"
  | .failed => "failed"
  | .cancelled => "cancelled"

/-- `TaskPriority` enum from `protocol/a2a_protocol.py`. -/
inductive TaskPriority where
  | low
  | normal
  | high
  | urgent
deriving DecidableEq, Repr

/-- `MessageType` enum from `protocol/a2a_protocol.py`. -/
inductive MessageType where
  | discovery_request
  | discovery_response
  | task_request
  | task_response
  | task_update
  | heartbeat
  | registration
  | deregistration
deriving DecidableEq, Repr

/-- Model of an opaque JSON-like map (`Dict[str, Any]`). -/
abbrev PMap := List (String × String)

/-- `Capability` pydantic model from `protocol/a2a_protocol.py`. -/
structure Capability where
  type : CapabilityType
  name : String
  description : String
  parameters : Option PMap := none
  version : String := "1.0.0"
  confidence : ℚ := 1
deriving DecidableEq, Repr

/-- `AgentCard` pydantic model from `protocol/agent_card.py`. -/
structure AgentCard where
  agent_id : String
  name : String
  description : String
  version : String := "1.0.0"
  capabilities : List Capability := []
  contact_info : Option (List (String × String)) := none
  location : Option String := none
  tags : List String := []
  created_at : ℚ
  last_seen : ℚ
  status : String := "active"
  response_time_ms : Option ℤ := none
  success_rate : Option ℚ := some 1
  total_tasks_completed : ℕ := 0
  max_concurrent_tasks : ℕ := 5
  supported_protocols : List String := ["a2a_v1.0"]
deriving DecidableEq, Repr

/-- Python `not s or len(s.strip()) == 0`: the string is empty or
consists of whitespace only. -/
def strBlank (s : String) : Bool :=
  s.data.all (fun c => c.isWhitespace)

/-- `validate_agent_card` from `protocol/agent_card.py`: returns the
list of validation error messages, empty when the card is valid. -/
def validate_agent_card (card : AgentCard) : List String :=
  let nameErr := if strBlank card.name then ["Agent name is required"] else []
  let descErr :=
    if strBlank card.description then ["Agent description is required"] else []
  let capsErr :=
    if card.capabilities = [] then ["At least one capability is required"] else []
  let capErrs :=
    (List.range card.capabilities.length).flatMap (fun i =>
      match card.capabilities[i]? with
      | none => []
      | some cap =>
        (if strBlank cap.name then
          ["Capability " ++ toString (i + 1) ++ " must have a name"] else []) ++
        (if strBlank cap.description then
          ["Capability " ++ toString (i + 1) ++ " must have a description"] else []))
  let rateErr :=
    match card.success_rate with
    | some r => if r < 0 ∨ r > 1 then ["Success rate must be between 0 and 1"] else []
    | none => []
  let maxErr :=
    if card.max_concurrent_tasks < 1 then
      ["Max concurrent tasks must be at least 1"] else []
  nameErr ++ descErr ++ capsErr ++ capErrs ++ rateErr ++ maxErr

/-- One DynamoDB item as written by `AgentRegistry.register_agent`
(`registry/registry.py` lines 61-90).  `capability_types`,
`location_index` and `tag_attrs` are the derived index attributes the
code adds alongside the record (`tag_attrs` collects the tags `t` for
which the boolean attribute named after the lowercased tag is
present and true). -/
structure Item where
  agent_id : String
  name : String
  description : String
  version : String
  capabilities : List Capability
  contact_info : List (String × String)
  location : Option String
  tags : List String
  created_at : ℚ
  last_seen : ℚ
  status : String
  response_time_ms : Option ℤ
  success_rate : Option ℚ
  total_tasks_completed : ℕ
  max_concurrent_tasks : ℕ
  supported_protocols : List String
  capability_types : List String
  location_index : Option String
  tag_attrs : List String
deriving DecidableEq, Repr

/-- The item `register_agent` builds from an agent card at time `now`
(Python truthiness: an empty-string `location` yields no
`location_index` attribute). -/
def itemOfCard (card : AgentCard) (now : ℚ) : Item :=
  { agent_id := card.agent_id
    name := card.name
    description := card.description
    version := card.version
    capabilities := card.capabilities
    contact_info := card.contact_info.getD []
    location := card.location
    tags := card.tags
    created_at := card.created_at
    last_seen := now
    status := "active"
    response_time_ms := card.response_time_ms
    success_rate := card.success_rate
    total_tasks_completed := card.total_tasks_completed
    max_concurrent_tasks := card.max_concurrent_tasks
    supported_protocols := card.supported_protocols
    capability_types := card.capabilities.map (fun c => c.type.value)
    location_index :=
      match card.location with
      | some l => if l = "" then none else some l.toLower
      | none => none
    tag_attrs := card.tags.map String.toLower }

/-- Backing store of the registry: the table items in scan order. -/
abbrev Store := List Item

/-- DynamoDB `put_item`: replaces the item with the same key, appends
when the key is new (keys are unique in a well-formed table). -/
def putItem (store : Store) (it : Item) : Store :=
  if store.any (fun x => x.agent_id = it.agent_id) then
    store.map (fun x => if x.agent_id = it.agent_id then it else x)
  else
    store ++ [it]

/-- DynamoDB `get_item` (`AgentRegistry.get_agent`). -/
def getAgent (store : Store) (agent_id : String) : Option Item :=
  store.find? (fun x => x.agent_id = agent_id)

/-- Result of a registry mutation (`success` plus either errors or a
message, as the Python dicts carry). -/
inductive RegResult where
  | ok
  | validationFailed (errors : List String)
  | notFound
deriving DecidableEq, Repr

/-- `AgentRegistry.register_agent`: validates the card, then `put_item`s
the full item with `status = "active"` and `last_seen = now`. -/
def register_agent (store : Store) (card : AgentCard) (now : ℚ) :
    RegResult × Store :=
  let errors := validate_agent_card card
  if errors = [] then (.ok, putItem store (itemOfCard card now))
  else (.validationFailed errors, store)

/-- The `updates` dict accepted by `AgentRegistry.update_agent`, one
optional entry per (statically known) item attribute; a `some` field
models the key being present in the dict. -/
structure Updates where
  name : Option String := none
  description : Option String := none
  version : Option String := none
  capabilities : Option (List Capability) := none
  capability_types : Option (List String) := none
  contact_info : Option (List (String × String)) := none
  location : Option (Option String) := none
  tags : Option (List String) := none
  created_at : Option ℚ := none
  last_seen : Option ℚ := none
  status : Option String := none
  response_time_ms : Option (Option ℤ) := none
  success_rate : Option (Option ℚ) := none
  total_tasks_completed : Option ℕ := none
  max_concurrent_tasks : Option ℕ := none
  supported_protocols : Option (List String) := none
deriving DecidableEq, Repr

/-- Applying the SET expression of `update_agent` to one item: every
supplied attribute is overwritten with the supplied value, except that
a supplied `last_seen` is special-cased to the current time
(`registry/registry.py` lines 136-138), whatever value the caller
passed. -/
def applyUpdates (it : Item) (u : Updates) (now : ℚ) : Item :=
  { it with
    name := u.name.getD it.name
    description := u.description.getD it.description
    version := u.version.getD it.version
    capabilities := u.capabilities.getD it.capabilities
    capability_types := u.capability_types.getD it.capability_types
    contact_info := u.contact_info.getD it.contact_info
    location := u.location.getD it.location
    tags := u.tags.getD it.tags
    created_at := u.created_at.getD it.created_at
    last_seen := if u.last_seen.isSome then now else it.last_seen
    status := u.status.getD it.status
    response_time_ms := u.response_time_ms.getD it.response_time_ms
    success_rate := u.success_rate.getD it.success_rate
    total_tasks_completed := u.total_tasks_completed.getD it.total_tasks_completed
    max_concurrent_tasks := u.max_concurrent_tasks.getD it.max_concurrent_tasks
    supported_protocols := u.supported_protocols.getD it.supported_protocols }

/-- `AgentRegistry.update_agent`: conditional update
(`attribute_exists(agent_id)`); fails with "Agent not found" when no
item has the key, otherwise SETs exactly the supplied attributes. -/
def update_agent (store : Store) (agent_id : String) (u : Updates) (now : ℚ) :
    RegResult × Store :=
  if store.any (fun x => x.agent_id = agent_id) then
    (.ok, store.map (fun x => if x.agent_id = agent_id then applyUpdates x u now else x))
  else
    (.notFound, store)

/-- `AgentRegistry.update_agent_heartbeat`: sugar for an update that
supplies only `last_seen` (the supplied value is the current time, and
is in any case re-stamped by `update_agent`). -/
def update_agent_heartbeat (store : Store) (agent_id : String) (now : ℚ) :
    RegResult × Store :=
  update_agent store agent_id { last_seen := some now } now

/-- The discovery query parameters of `AgentRegistry.discover_agents`
(`tags = []` models both an absent and an empty tag list, which the
code treats alike: no tag condition is added). -/
structure DiscoveryQuery where
  required_capabilities : List CapabilityType
  optional_capabilities : List CapabilityType := []
  location : Option String := none
  tags : List String := []
  max_results : ℕ := 10
  active_only : Bool := true
deriving DecidableEq, Repr

/-- The conjunctive `FilterExpression` built by `discover_agents`
(lines 240-273): all required capability values contained in
`capability_types`, `location_index` equal to the lowercased query
location when one is given (Python truthiness: an empty-string
location adds no condition), for every query tag the boolean
attribute named after its lowercased form present, and `status = "active"` when `active_only`.
`optional_capabilities` contribute no condition. -/
def matchesQuery (q : DiscoveryQuery) (it : Item) : Bool :=
  q.required_capabilities.all (fun c => it.capability_types.contains c.value) &&
  (match q.location with
   | some l => if l = "" then true else it.location_index = some l.toLower
   | none => true) &&
  q.tags.all (fun t => it.tag_attrs.contains t.toLower) &&
  (!q.active_only || it.status = "active")

/-- Stable insertion (descending by key `f`): `x` is placed before the
first element whose key is `≤ f x`, so earlier elements win ties. -/
def insertDescBy {α : Type} (f : α → ℚ) (x : α) : List α → List α
  | [] => [x]
  | y :: ys => if f y ≤ f x then x :: y :: ys else y :: insertDescBy f x ys

/-- Stable sort, descending by key `f`: the semantics of the stable
Python `sorted(..., key=f, reverse=True)` and `list.sort(...)`. -/
def sortDescBy {α : Type} (f : α → ℚ) : List α → List α
  | [] => []
  | x :: xs => insertDescBy f x (sortDescBy f xs)

/-- `AgentRegistry.discover_agents`: a `scan` with `Limit = max_results`
evaluates only the first `max_results` items of the table, the filter
expression keeps the matching ones among those, and the code then
sorts the returned page by `last_seen` descending.
`optional_capabilities` are accepted and ignored. -/
def discover_agents (store : Store) (q : DiscoveryQuery) : List Item :=
  sortDescBy (fun it => it.last_seen)
    ((store.take q.max_results).filter (matchesQuery q))

/-- `Task` pydantic model from `protocol/a2a_protocol.py`. -/
structure Task where
  task_id : String
  title : String
  description : String
  required_capabilities : List CapabilityType
  parameters : PMap := []
  priority : TaskPriority := .normal
  deadline : Option ℚ := none
  created_by : String
  assigned_to : Option String := none
  status : TaskStatus := .pending
  created_at : ℚ
  updated_at : ℚ
  result : Option PMap := none
  error_message : Option String := none
  success_rate : Option ℚ := some 1
deriving DecidableEq, Repr

/-- One entry of the execution history of a task
(`TaskManager.update_task_status`, lines 72-77). -/
structure HistEntry where
  timestamp : ℚ
  status : TaskStatus
  updated_by : String
  notes : String
deriving DecidableEq, Repr

/-- `TaskManager` state: the `tasks` dict (as a list keyed by unique
`task_id`) and the per-task `execution_history`.  The handler map is
passed explicitly to `tm_execute_task`. -/
structure TMState where
  tasks : List Task := []
  execution_history : List (String × List HistEntry) := []
deriving DecidableEq, Repr

/-- Dict write `self.tasks[task.task_id] = task`. -/
def tmPut (tasks : List Task) (t : Task) : List Task :=
  if tasks.any (fun x => x.task_id = t.task_id) then
    tasks.map (fun x => if x.task_id = t.task_id then t else x)
  else
    tasks ++ [t]

/-- `TaskManager.get_task`. -/
def tmGet (s : TMState) (task_id : String) : Option Task :=
  s.tasks.find? (fun x => x.task_id = task_id)

/-- Association-list write for the `execution_history` dict. -/
def histPut (h : List (String × List HistEntry)) (task_id : String)
    (entries : List HistEntry) : List (String × List HistEntry) :=
  if h.any (fun x => x.1 = task_id) then
    h.map (fun x => if x.1 = task_id then (task_id, entries) else x)
  else
    h ++ [(task_id, entries)]

/-- `TaskManager.create_task`: builds a fresh `pending`, unassigned
task (the `task_id or str(uuid.uuid4())` default is modelled by the
caller supplying the id) and stores it with an empty history. -/
def create_task (s : TMState) (task_id title description : String)
    (required_capabilities : List CapabilityType) (created_by : String)
    (parameters : PMap) (priority : TaskPriority) (deadline : Option ℚ)
    (now : ℚ) : Task × TMState :=
  let t : Task :=
    { task_id := task_id
      title := title
      description := description
      required_capabilities := required_capabilities
      parameters := parameters
      priority := priority
      deadline := deadline
      created_by := created_by
      created_at := now
      updated_at := now }
  (t, { tasks := tmPut s.tasks t
        execution_history := histPut s.execution_history task_id [] })

/-- The `**kwargs` accepted by `TaskManager.update_task_status`; a
`some` field models the key being present. -/
structure TMKwargs where
  result : Option (Option PMap) := none
  error_message : Option (Option String) := none
  assigned_to : Option (Option String) := none
  updated_by : Option String := none
  notes : Option String := none
deriving DecidableEq, Repr

/-- `TaskManager.update_task_status` (lines 54-79): no guard at all —
whenever the task exists, it overwrites `status`, stamps `updated_at`,
applies any supplied `result`/`error_message`/`assigned_to`, appends a
history entry and returns `True`; only a missing task returns
`False`. -/
def update_task_status (s : TMState) (task_id : String) (status : TaskStatus)
    (kw : TMKwargs) (now : ℚ) : Bool × TMState :=
  match tmGet s task_id with
  | none => (false, s)
  | some t =>
    let t' := { t with
      status := status
      updated_at := now
      result := kw.result.getD t.result
      error_message := kw.error_message.getD t.error_message
      assigned_to := kw.assigned_to.getD t.assigned_to }
    let entry : HistEntry :=
      { timestamp := now
        status := status
        updated_by := kw.updated_by.getD "system"
        notes := kw.notes.getD "" }
    let old := (s.execution_history.find? (fun x => x.1 = task_id)).map Prod.snd
    (true,
     { tasks := tmPut s.tasks t'
       execution_history := histPut s.execution_history task_id (old.getD [] ++ [entry]) })

/-- `TaskManager.assign_task`. -/
def assign_task (s : TMState) (task_id agent_id : String) (now : ℚ) :
    Bool × TMState :=
  update_task_status s task_id .in_progress
    { assigned_to := some (some agent_id), updated_by := some "system" } now

/-- `TaskManager.complete_task`. -/
def complete_task (s : TMState) (task_id : String) (result : PMap)
    (agent_id : String) (now : ℚ) : Bool × TMState :=
  update_task_status s task_id .completed
    { result := some (some result), updated_by := some agent_id } now

/-- `TaskManager.fail_task`. -/
def fail_task (s : TMState) (task_id error_message agent_id : String)
    (now : ℚ) : Bool × TMState :=
  update_task_status s task_id .failed
    { error_message := some (some error_message), updated_by := some agent_id } now

/-- `TaskManager.cancel_task`. -/
def cancel_task (s : TMState) (task_id : String)
    (reason : String := "Cancelled by user") (now : ℚ := 0) : Bool × TMState :=
  update_task_status s task_id .cancelled
    { error_message := some (some reason), updated_by := some "system" } now

/-- A task handler (`Callable` registered per capability-type value):
raising is modelled by returning `.error msg`. -/
abbrev THandler := PMap → Except String PMap

/-- The first handler whose capability value is registered, scanning
`task.required_capabilities` in order (first match wins). -/
def findHandler (handlers : List (String × THandler))
    (caps : List CapabilityType) : Option THandler :=
  match caps with
  | [] => none
  | c :: cs =>
    match handlers.find? (fun h => h.1 = c.value) with
    | some h => some h.2
    | none => findHandler handlers cs

/-- The `Dict[str, Any]` result of the execute-task entry points. -/
structure ExecResult where
  success : Bool
  result : Option PMap := none
  error : Option String := none
  execution_time_ms : Option ℚ := none
deriving DecidableEq, Repr

/-- `TaskManager.execute_task` (lines 147-190): the strict path — the
task must exist, be `in_progress` and be assigned to the calling
agent; then the first matching handler runs, completing or failing the
task.  `elapsed` models the measured execution time. -/
def tm_execute_task (s : TMState) (handlers : List (String × THandler))
    (task_id agent_id : String) (now elapsed : ℚ) : ExecResult × TMState :=
  match tmGet s task_id with
  | none => ({ success := false, error := some "Task not found" }, s)
  | some t =>
    if t.status ≠ .in_progress then
      ({ success := false,
         error := some ("Task is not in progress (status: " ++ t.status.value ++ ")") }, s)
    else if t.assigned_to ≠ some agent_id then
      ({ success := false, error := some "Task not assigned to this agent" }, s)
    else
      match findHandler handlers t.required_capabilities with
      | none =>
        ({ success := false,
           error := some "No handler found for required capabilities" }, s)
      | some h =>
        match h t.parameters with
        | .ok r =>
          let s' := (complete_task s task_id r agent_id now).2
          ({ success := true, result := some r,
             execution_time_ms := some elapsed }, s')
        | .error e =>
          let s' := (fail_task s task_id e agent_id now).2
          ({ success := false, error := some e }, s')

/-- The `TaskManager` operations a client can invoke, paired with the
wall-clock instant of the call when run (`TMOp × ℚ` in a trace). -/
inductive TMOp where
  | create (task_id title description : String)
      (required_capabilities : List CapabilityType) (created_by : String)
      (parameters : PMap) (priority : TaskPriority) (deadline : Option ℚ)
  | assign (task_id agent_id : String)
  | complete (task_id : String) (result : PMap) (agent_id : String)
  | fail (task_id error_message agent_id : String)
  | cancel (task_id reason : String)
  | update (task_id : String) (status : TaskStatus) (kw : TMKwargs)
deriving Repr, DecidableEq

/-- One `TaskManager` call. -/
def tmStep (s : TMState) (op : TMOp) (now : ℚ) : TMState :=
  match op with
  | .create tid title descr caps creator params prio dl =>
    (create_task s tid title descr caps creator params prio dl now).2
  | .assign tid aid => (assign_task s tid aid now).2
  | .complete tid res aid => (complete_task s tid res aid now).2
  | .fail tid err aid => (fail_task s tid err aid now).2
  | .cancel tid reason => (cancel_task s tid reason now).2
  | .update tid st kw => (update_task_status s tid st kw now).2

/-- A sequence of `TaskManager` calls at given instants. -/
def tmRun (s : TMState) (ops : List (TMOp × ℚ)) : TMState :=
  ops.foldl (fun s p => tmStep s p.1 p.2) s

/-- `TaskScheduler.priority_weights` (`protocol/task.py` lines 276-281),
looked up with default 1 (`self.priority_weights.get(task.priority, 1)`). -/
def priority_weight : TaskPriority → ℚ
  | .low => 1
  | .normal => 2
  | .high => 3
  | .urgent => 4

/-- The inner `task_score` of `TaskScheduler.prioritize_tasks`
(lines 285-297): priority weight, plus 10 when the deadline has
passed, plus 0.1 per hour of age. -/
def task_score (now : ℚ) (t : Task) : ℚ :=
  let base := priority_weight t.priority
  let overdue : ℚ :=
    match t.deadline with
    | some d => if d < now then 10 else 0
    | none => 0
  let age_hours := (now - t.created_at) / 3600
  base + overdue + age_hours * (1 / 10)

/-- `TaskScheduler.prioritize_tasks`:
`sorted(tasks, key=task_score, reverse=True)` — the stable Python
sort, descending by score. -/
def prioritize_tasks (now : ℚ) (tasks : List Task) : List Task :=
  sortDescBy (task_score now) tasks

/-- One entry of the `available_agents` dicts consumed by
`TaskScheduler.get_optimal_agent_for_task`; the `Option` fields model
keys the dict may lack (`agent.get(key, default)`). -/
structure AgentInfo where
  agent_id : String
  capabilities : Option (List String) := none
  current_load : Option ℚ := none
  success_rate : Option ℚ := none
deriving DecidableEq, Repr

/-- `has_all_capabilities` check of `get_optimal_agent_for_task`
(lines 313-316): every required capability value appears in the
`capabilities` list of the agent dict (defaulting to `[]`). -/
def agent_suitable (t : Task) (a : AgentInfo) : Bool :=
  t.required_capabilities.all (fun c => (a.capabilities.getD []).contains c.value)

/-- The agent score of `get_optimal_agent_for_task` (lines 320-324):
`(1 - current_load) * success_rate`, with defaults 0.0 and 0.5. -/
def agent_score (a : AgentInfo) : ℚ :=
  (1 - a.current_load.getD 0) * a.success_rate.getD (1 / 2)

/-- Python `max(xs, key=score)` over a nonempty list: keeps the current
maximum and replaces it only on a strictly larger score, so the first
maximal element wins. -/
def maxByScore (x : AgentInfo) (xs : List AgentInfo) : AgentInfo :=
  xs.foldl (fun best a => if agent_score best < agent_score a then a else best) x

/-- `TaskScheduler.get_optimal_agent_for_task` (lines 301-336): filter
to capability-superset agents, return `None` when none qualifies,
otherwise the `agent_id` of the (first) maximum-score qualifier. -/
def get_optimal_agent_for_task (t : Task) (agents : List AgentInfo) :
    Option String :=
  match agents.filter (agent_suitable t) with
  | [] => none
  | x :: xs => some (maxByScore x xs).agent_id

/-- `Message` pydantic model from `protocol/a2a_protocol.py`. -/
structure Message where
  message_id : String
  message_type : MessageType
  sender_id : String
  recipient_id : Option String := none
  timestamp : ℚ
  payload : PMap := []
  correlation_id : Option String := none
  reply_to : Option String := none
deriving DecidableEq, Repr

/-- A user-supplied message handler (`BaseAgent.message_handlers`
values); raising is modelled by returning `.error msg`. -/
abbrev MHandler := Message → Except String Unit

/-- The `BaseAgent` mutable state relevant to message processing and
task execution (`agents/base_agent.py` lines 74-83): the handler maps
and the performance metrics. -/
structure AgentState where
  message_handlers : List (MessageType × MHandler) := []
  task_handlers : List (CapabilityType × THandler) := []
  tasks_completed : ℕ := 0
  tasks_failed : ℕ := 0
  response_times : List ℚ := []

/-- `BaseAgent._calculate_success_rate` (lines 124-127):
`completed / (completed + failed)`, defaulting to 1.0 when no task has
finished. -/
def calculate_success_rate (st : AgentState) : ℚ :=
  let total := st.tasks_completed + st.tasks_failed
  if total > 0 then (st.tasks_completed : ℚ) / (total : ℚ) else 1

/-- `BaseAgent.process_message` (lines 240-256): the whole body runs
under try/except, so a handler exception is caught and turns into a
`False` result; a missing handler logs and returns `False`; a
successful handler appends the elapsed time to `response_times` and
returns `True`.  The function never raises. -/
def process_message (st : AgentState) (m : Message) (elapsed : ℚ) :
    Bool × AgentState :=
  match st.message_handlers.find? (fun h => h.1 = m.message_type) with
  | none => (false, st)
  | some h =>
    match h.2 m with
    | .ok _ => (true, { st with response_times := st.response_times ++ [elapsed] })
    | .error _ => (false, st)

/-- First registered task handler whose capability type appears in the
required capabilities of the task (`BaseAgent.execute_task` lines
328-332; first match wins, the map is keyed by `CapabilityType`
itself). -/
def agentFindHandler (handlers : List (CapabilityType × THandler)) :
    List CapabilityType → Option THandler
  | [] => none
  | c :: cs =>
    match handlers.find? (fun h => h.1 = c) with
    | some h => some h.2
    | none => agentFindHandler handlers cs

/-- `BaseAgent.execute_task` (lines 324-360): no matching handler
yields a structured failure and touches nothing; a successful handler
increments `tasks_completed` and records the elapsed time; a raising
handler is caught, increments `tasks_failed`, and yields a structured
failure carrying the exception message.  The function never raises. -/
def agent_execute_task (st : AgentState) (t : Task) (elapsed : ℚ) :
    ExecResult × AgentState :=
  match agentFindHandler st.task_handlers t.required_capabilities with
  | none =>
    ({ success := false,
       error := some "No handler found for required capabilities" }, st)
  | some h =>
    match h t.parameters with
    | .ok r =>
      ({ success := true, result := some r, execution_time_ms := some elapsed },
       { st with
         tasks_completed := st.tasks_completed + 1
         response_times := st.response_times ++ [elapsed] })
    | .error e =>
      ({ success := false, error := some e },
       { st with tasks_failed := st.tasks_failed + 1 })

/-- Concrete task used to instantiate the C7 theorem. -/
def C7task : Task :=
  { task_id := "t1", title := "T", description := "D",
    required_capabilities := [.text_processing], created_by := "creator",
    created_at := 0, updated_at := 0 }

/-- Candidate with score (1 - 0.2) × 0.9 = 0.72. -/
def C7agentA : AgentInfo :=
  { agent_id := "agent-a", capabilities := some ["text_processing"],
    current_load := some (1 / 5), success_rate := some (9 / 10) }

/-- Candidate with score (1 - 0.5) × 0.95 = 0.475. -/
def C7agentB : AgentInfo :=
  { agent_id := "agent-b", capabilities := some ["text_processing"],
    current_load := some (1 / 2), success_rate := some (19 / 20) }

/-- The claimed invariant relating `assigned_to` and `status`: unset
while `pending`, set in `in_progress`, `completed` and `failed`, and
either way in `cancelled`. -/
def assigned_status_ok (t : Task) : Bool :=
  match t.status with
  | .pending => t.assigned_to = none
  | .in_progress => t.assigned_to ≠ none
  | .completed => t.assigned_to ≠ none
  | .failed => t.assigned_to ≠ none
  | .cancelled => true

/-- The invariant over a whole `TaskManager` state. -/
def tmInv (s : TMState) : Bool :=
  s.tasks.all assigned_status_ok

/-- Guard on one operation: `complete`/`fail` only target tasks that
are currently assigned (or missing), and a raw `update` may only
produce a status/assignee combination satisfying the invariant.
`create`, `assign` and `cancel` are unrestricted. -/
def stepGuard (s : TMState) (op : TMOp) : Bool :=
  match op with
  | .complete tid _ _ =>
    match tmGet s tid with
    | some t => t.assigned_to ≠ none
    | none => true
  | .fail tid _ _ =>
    match tmGet s tid with
    | some t => t.assigned_to ≠ none
    | none => true
  | .update tid st kw =>
    match tmGet s tid with
    | some t =>
      assigned_status_ok
        { t with status := st, assigned_to := kw.assigned_to.getD t.assigned_to }
    | none => true
  | _ => true

/-- All operations of a trace pass their guard in the state where they
execute. -/
def runGuard : TMState → List (TMOp × ℚ) → Bool
  | _, [] => true
  | s, (op, now) :: rest => stepGuard s op && runGuard (tmStep s op now) rest

/-- A manager holding one freshly created (pending, unassigned) task. -/
def C1state : TMState :=
  (create_task ⟨[], []⟩ "t1" "Title" "Desc" [.text_processing] "creator"
    [] .normal none 0).2

/-- The task stored in `C1state`. -/
def C1taskW : Task :=
  { task_id := "t1", title := "Title", description := "Desc",
    required_capabilities := [.text_processing], created_by := "creator",
    created_at := 0, updated_at := 0 }

/-- Trace refuting the C4 invariant: create a task, then complete it
while it was never assigned. -/
def C4ops : List (TMOp × ℚ) :=
  [(.create "t1" "T" "D" [.text_processing] "creator" [] .normal none, 0),
   (.complete "t1" [] "agent-x", 1)]

/-- A guarded trace: create, assign, then complete by the assignee. -/
def C4okOps : List (TMOp × ℚ) :=
  [(.create "t2" "T" "D" [.text_processing] "creator" [] .normal none, 0),
   (.assign "t2" "agent-a", 1),
   (.complete "t2" [] "agent-a", 2)]

/-- Agent state whose heartbeat message handler and text-processing
task handler both raise. -/
def C9state : AgentState :=
  { message_handlers := [(.heartbeat, fun _ => .error "boom")],
    task_handlers := [(.text_processing, fun _ => .error "kaput")] }

/-- A heartbeat message for the raising handler. -/
def C9msg : Message :=
  { message_id := "m1", message_type := .heartbeat, sender_id := "s1",
    timestamp := 0 }

/-- A task routed to the raising task handler. -/
def C9task : Task :=
  { task_id := "t9", title := "T", description := "D",
    required_capabilities := [.text_processing], created_by := "creator",
    created_at := 0, updated_at := 0 }

/-- Agent state with some finished tasks and no task handlers. -/
def C10state : AgentState :=
  { tasks_completed := 3, tasks_failed := 1, response_times := [5, 7] }

/-- A task none of whose required capabilities has a handler in
`C10state`. -/
def C10task : Task :=
  { task_id := "t10", title := "T", description := "D",
    required_capabilities := [.data_analysis], created_by := "creator",
    created_at := 0, updated_at := 0 }

/-- An active item with no capabilities (first in scan order). -/
def C2item0 : Item :=
  { agent_id := "agent-0", name := "Zero", description := "no capabilities",
    version := "1.0.0", capabilities := [], contact_info := [],
    location := none, tags := [], created_at := 0, last_seen := 0,
    status := "active", response_time_ms := none, success_rate := some 1,
    total_tasks_completed := 0, max_concurrent_tasks := 5,
    supported_protocols := ["a2a_v1.0"], capability_types := [],
    location_index := none, tag_attrs := [] }

/-- An active text-processing item (second in scan order). -/
def C2item1 : Item :=
  { C2item0 with
    agent_id := "agent-1"
    name := "One"
    capabilities := [{ type := .text_processing, name := "tp", description := "text" }]
    capability_types := ["text_processing"]
    last_seen := 10 }

/-- Query requiring text_processing with a scan limit of 1. -/
def C2query : DiscoveryQuery :=
  { required_capabilities := [.text_processing], max_results := 1 }

/-- Query requiring text_processing with a scan limit of 10. -/
def C2queryBig : DiscoveryQuery :=
  { required_capabilities := [.text_processing], max_results := 10 }

/-- An active item without the queried capability (first in scan
order of the C5 store). -/
def C5item0 : Item :=
  { agent_id := "agent-5a", name := "FiveA", description := "web scraping only",
    version := "1.0.0",
    capabilities := [{ type := .web_scraping, name := "ws", description := "web" }],
    contact_info := [], location := none, tags := [], created_at := 0,
    last_seen := 3, status := "active", response_time_ms := none,
    success_rate := some 1, total_tasks_completed := 0,
    max_concurrent_tasks := 5, supported_protocols := ["a2a_v1.0"],
    capability_types := ["web_scraping"], location_index := none,
    tag_attrs := [] }

/-- An active data-analysis item (second in scan order of the C5
store). -/
def C5item1 : Item :=
  { C5item0 with
    agent_id := "agent-5b"
    name := "FiveB"
    capabilities := [{ type := .data_analysis, name := "da", description := "data" }]
    capability_types := ["data_analysis"]
    last_seen := 7 }

/-- Query requiring data_analysis with a scan limit of 1. -/
def C5query : DiscoveryQuery :=
  { required_capabilities := [.data_analysis], max_results := 1 }

/-- Query requiring data_analysis with a scan limit of 10. -/
def C5queryBig : DiscoveryQuery :=
  { required_capabilities := [.data_analysis], max_results := 10 }

/-- First registration card (capability text_processing, created_at 0). -/
def C3card1 : AgentCard :=
  { agent_id := "agent-r", name := "R", description := "first registration",
    capabilities := [{ type := .text_processing, name := "tp", description := "text" }],
    created_at := 0, last_seen := 0 }

/-- Second registration card for the same agent_id (capability
data_analysis, created_at 100). -/
def C3card2 : AgentCard :=
  { agent_id := "agent-r", name := "R2", description := "second registration",
    capabilities := [{ type := .data_analysis, name := "da", description := "data" }],
    created_at := 100, last_seen := 0 }

/-- A registered item for the heartbeat claim. -/
def C8item : Item :=
  { agent_id := "agent-h", name := "H", description := "heartbeating agent",
    version := "1.0.0",
    capabilities := [{ type := .text_processing, name := "tp", description := "text" }],
    contact_info := [], location := some "Berlin", tags := ["fast"],
    created_at := 1, last_seen := 5, status := "active",
    response_time_ms := some 120, success_rate := some 1,
    total_tasks_completed := 2, max_concurrent_tasks := 5,
    supported_protocols := ["a2a_v1.0"], capability_types := ["text_processing"],
    location_index := some "berlin", tag_attrs := ["fast"] }

/-! ### Helper lemmas about the stable descending sort -/

theorem insertDescBy_perm {α : Type} (f : α → ℚ) (x : α) (l : List α) :
    (insertDescBy f x l).Perm (x :: l) := by
  induction l with
  | nil => exact List.Perm.refl _
  | cons y ys ih =>
    by_cases h : f y ≤ f x
    · simp only [insertDescBy, if_pos h]
      exact List.Perm.refl _
    · simp only [insertDescBy, if_neg h]
      exact (ih.cons y).trans (List.Perm.swap x y ys)

theorem sortDescBy_perm {α : Type} (f : α → ℚ) (l : List α) :
    (sortDescBy f l).Perm l := by
  induction l with
  | nil => exact List.Perm.refl _
  | cons x xs ih =>
    exact (insertDescBy_perm f x (sortDescBy f xs)).trans (ih.cons x)

theorem mem_sortDescBy {α : Type} (f : α → ℚ) (l : List α) (a : α) :
    a ∈ sortDescBy f l ↔ a ∈ l :=
  (sortDescBy_perm f l).mem_iff

theorem insertDescBy_sorted {α : Type} (f : α → ℚ) (x : α) (l : List α)
    (h : l.Pairwise (fun a b => f b ≤ f a)) :
    (insertDescBy f x l).Pairwise (fun a b => f b ≤ f a) := by
  induction l with
  | nil => simp [insertDescBy]
  | cons y ys ih =>
    rw [List.pairwise_cons] at h
    obtain ⟨hy, hys⟩ := h
    by_cases hc : f y ≤ f x
    · simp only [insertDescBy, if_pos hc]
      refine List.pairwise_cons.2 ⟨?_, List.pairwise_cons.2 ⟨hy, hys⟩⟩
      intro b hb
      rcases List.mem_cons.1 hb with rfl | hb2
      · exact hc
      · exact le_trans (hy b hb2) hc
    · simp only [insertDescBy, if_neg hc]
      refine List.pairwise_cons.2 ⟨?_, ih hys⟩
      intro b hb
      have hb2 : b ∈ x :: ys := (insertDescBy_perm f x ys).mem_iff.1 hb
      rcases List.mem_cons.1 hb2 with rfl | hb3
      · exact (lt_of_not_le hc).le
      · exact hy b hb3

theorem sortDescBy_sorted {α : Type} (f : α → ℚ) (l : List α) :
    (sortDescBy f l).Pairwise (fun a b => f b ≤ f a) := by
  induction l with
  | nil => simp [sortDescBy]
  | cons x xs ih => exact insertDescBy_sorted f x _ ih

theorem filter_insertDescBy_of_eq {α : Type} (f : α → ℚ) (x : α) (l : List α)
    (q : ℚ) (hq : f x = q) :
    (insertDescBy f x l).filter (fun a => decide (f a = q)) =
      x :: l.filter (fun a => decide (f a = q)) := by
  induction l with
  | nil => simp [insertDescBy, hq]
  | cons y ys ih =>
    by_cases hc : f y ≤ f x
    · simp only [insertDescBy, if_pos hc]
      rw [List.filter_cons_of_pos (by simp [hq])]
    · have hyq : ¬(f y = q) := by
        intro hyq
        exact hc (by rw [hyq, ← hq])
      simp only [insertDescBy, if_neg hc]
      rw [List.filter_cons_of_neg (by simp [hyq]), ih,
        List.filter_cons_of_neg (by simp [hyq])]

theorem filter_insertDescBy_of_ne {α : Type} (f : α → ℚ) (x : α) (l : List α)
    (q : ℚ) (hq : ¬(f x = q)) :
    (insertDescBy f x l).filter (fun a => decide (f a = q)) =
      l.filter (fun a => decide (f a = q)) := by
  induction l with
  | nil => simp [insertDescBy, hq]
  | cons y ys ih =>
    by_cases hc : f y ≤ f x
    · simp only [insertDescBy, if_pos hc]
      rw [List.filter_cons_of_neg (by simp [hq])]
    · simp only [insertDescBy, if_neg hc]
      by_cases hyq : f y = q
      · rw [List.filter_cons_of_pos (by simp [hyq]), ih,
          List.filter_cons_of_pos (by simp [hyq])]
      · rw [List.filter_cons_of_neg (by simp [hyq]), ih,
          List.filter_cons_of_neg (by simp [hyq])]

theorem sortDescBy_filter_stable {α : Type} (f : α → ℚ) (l : List α) (q : ℚ) :
    (sortDescBy f l).filter (fun a => decide (f a = q)) =
      l.filter (fun a => decide (f a = q)) := by
  induction l with
  | nil => rfl
  | cons x xs ih =>
    by_cases hx : f x = q
    · simp only [sortDescBy]
      rw [filter_insertDescBy_of_eq f x _ q hx, ih,
        List.filter_cons_of_pos (by simp [hx])]
    · simp only [sortDescBy]
      rw [filter_insertDescBy_of_ne f x _ q hx, ih,
        List.filter_cons_of_neg (by simp [hx])]

/-! ### C6: prioritize_tasks -/

/-- C6: `prioritize_tasks` sorts descending by the score
priority_weight + (10 if now > deadline else 0) + 0.1 × age_in_hours
(weights low→1, normal→2, high→3, urgent→4), it permutes its input,
and the sort is stable — for every score value, the tasks attaining it
appear in their original relative order. -/
theorem C6_prioritize_tasks_stable_desc (now : ℚ) (tasks : List Task) :
    (∀ t : Task, task_score now t =
      (match t.priority with
       | .low => (1 : ℚ) | .normal => 2 | .high => 3 | .urgent => 4) +
      (match t.deadline with
       | some d => if now > d then (10 : ℚ) else 0
       | none => 0) +
      ((now - t.created_at) / 3600) * (1 / 10)) ∧
    (prioritize_tasks now tasks).Perm tasks ∧
    (prioritize_tasks now tasks).Pairwise
      (fun a b => task_score now b ≤ task_score now a) ∧
    (∀ q : ℚ,
      (prioritize_tasks now tasks).filter (fun t => decide (task_score now t = q)) =
        tasks.filter (fun t => decide (task_score now t = q))) := by
  refine ⟨?_, ?_, ?_, ?_⟩
  · intro t
    cases hp : t.priority <;> cases hd : t.deadline <;>
      simp [task_score, priority_weight, hp, hd]
  · exact sortDescBy_perm _ tasks
  · exact sortDescBy_sorted _ tasks
  · intro q
    exact sortDescBy_filter_stable _ tasks q

/-! ### C7: get_optimal_agent_for_task -/

theorem maxByScore_spec (x : AgentInfo) (xs : List AgentInfo) :
    maxByScore x xs ∈ x :: xs ∧
      ∀ a ∈ x :: xs, agent_score a ≤ agent_score (maxByScore x xs) := by
  induction xs generalizing x with
  | nil =>
    refine ⟨List.mem_singleton.2 rfl, ?_⟩
    intro a ha
    rw [List.mem_singleton.1 ha]
    exact le_refl _
  | cons y ys ih =>
    have hstep : maxByScore x (y :: ys) =
        maxByScore (if agent_score x < agent_score y then y else x) ys := rfl
    obtain ⟨hmem, hle⟩ := ih (if agent_score x < agent_score y then y else x)
    have hm : agent_score x ≤
        agent_score (if agent_score x < agent_score y then y else x) ∧
        agent_score y ≤
        agent_score (if agent_score x < agent_score y then y else x) := by
      by_cases hxy : agent_score x < agent_score y
      · rw [if_pos hxy]
        exact ⟨hxy.le, le_refl _⟩
      · rw [if_neg hxy]
        exact ⟨le_refl _, le_of_not_lt hxy⟩
    refine ⟨?_, ?_⟩
    · rw [hstep]
      rcases List.mem_cons.1 hmem with h | h
      · rw [h]
        by_cases hxy : agent_score x < agent_score y
        · rw [if_pos hxy]
          exact List.mem_cons_of_mem _ (List.mem_cons_self _ _)
        · rw [if_neg hxy]
          exact List.mem_cons_self _ _
      · exact List.mem_cons_of_mem _ (List.mem_cons_of_mem _ h)
    · intro a ha
      rw [hstep]
      rcases List.mem_cons.1 ha with rfl | ha2
      · exact le_trans hm.1 (hle _ (List.mem_cons_self _ _))
      · rcases List.mem_cons.1 ha2 with rfl | ha3
        · exact le_trans hm.2 (hle _ (List.mem_cons_self _ _))
        · exact hle a (List.mem_cons_of_mem _ ha3)

/-- C7: `get_optimal_agent_for_task` returns `none` exactly when no
candidate has all required capability values in its capability list,
and otherwise returns the `agent_id` of a qualifying candidate of
maximal score `(1 - current_load) × success_rate` among all qualifying
candidates. -/
theorem C7_get_optimal_agent_spec (t : Task) (agents : List AgentInfo) :
    (get_optimal_agent_for_task t agents = none ↔
      ∀ a ∈ agents, ¬(agent_suitable t a = true)) ∧
    (∀ id, get_optimal_agent_for_task t agents = some id →
      ∃ a ∈ agents, agent_suitable t a = true ∧ a.agent_id = id ∧
        ∀ b ∈ agents, agent_suitable t b = true →
          agent_score b ≤ agent_score a) := by
  cases hf : agents.filter (agent_suitable t) with
  | nil =>
    have hg : get_optimal_agent_for_task t agents = none := by
      simp [get_optimal_agent_for_task, hf]
    constructor
    · rw [hg]
      exact iff_of_true rfl (List.filter_eq_nil_iff.1 hf)
    · intro id hid
      rw [hg] at hid
      exact absurd hid (by simp)
  | cons x xs =>
    have hg : get_optimal_agent_for_task t agents =
        some (maxByScore x xs).agent_id := by
      simp [get_optimal_agent_for_task, hf]
    constructor
    · rw [hg]
      refine iff_of_false (by simp) ?_
      intro h
      have hx : x ∈ agents.filter (agent_suitable t) := by
        rw [hf]
        exact List.mem_cons_self _ _
      have hx2 := List.mem_filter.1 hx
      exact absurd hx2.2 (h x hx2.1)
    · intro id hid
      rw [hg] at hid
      have hid2 := Option.some_inj.1 hid
      obtain ⟨hmem, hle⟩ := maxByScore_spec x xs
      rw [← hf] at hmem
      have hmf := List.mem_filter.1 hmem
      refine ⟨maxByScore x xs, hmf.1, hmf.2, hid2, ?_⟩
      intro b hb hsb
      have hbf : b ∈ x :: xs := by
        rw [← hf]
        exact List.mem_filter.2 ⟨hb, hsb⟩
      exact hle b hbf

/-- C7 witness: on two qualifying candidates with scores 0.72 and
0.475, selection returns the 0.72 agent and the theorem yields a
maximal qualifying witness for it. -/
theorem C7_get_optimal_agent_spec_witness :
    get_optimal_agent_for_task C7task [C7agentA, C7agentB] = some "agent-a" ∧
    (∃ a ∈ [C7agentA, C7agentB], agent_suitable C7task a = true ∧
      a.agent_id = "agent-a" ∧
      ∀ b ∈ [C7agentA, C7agentB], agent_suitable C7task b = true →
        agent_score b ≤ agent_score a) :=
  ⟨by norm_num [get_optimal_agent_for_task, C7task, C7agentA, C7agentB,
      agent_suitable, agent_score, maxByScore, CapabilityType.value],
   (C7_get_optimal_agent_spec C7task [C7agentA, C7agentB]).2 "agent-a"
     (by norm_num [get_optimal_agent_for_task, C7task, C7agentA, C7agentB,
       agent_suitable, agent_score, maxByScore, CapabilityType.value])⟩

/-! ### C9: handler exceptions are contained -/

/-- C9: `process_message` and `execute_task` are total result-returning
functions (they never propagate a handler exception): a missing message
handler yields `false`; a raising message handler is caught and yields
`false` with the agent state untouched; a raising task handler is
caught and yields a structured failure carrying the exception message
(incrementing only `tasks_failed`); a task with no matching handler
yields an unsuccessful result. -/
theorem C9_handler_exceptions_contained (st : AgentState) (m : Message)
    (t : Task) (elapsed : ℚ) :
    (st.message_handlers.find? (fun h => h.1 = m.message_type) = none →
      process_message st m elapsed = (false, st)) ∧
    (∀ h e, st.message_handlers.find? (fun h2 => h2.1 = m.message_type) = some h →
      h.2 m = .error e → process_message st m elapsed = (false, st)) ∧
    (agentFindHandler st.task_handlers t.required_capabilities = none →
      (agent_execute_task st t elapsed).1.success = false) ∧
    (∀ h e, agentFindHandler st.task_handlers t.required_capabilities = some h →
      h t.parameters = .error e →
      agent_execute_task st t elapsed =
        ({ success := false, error := some e },
         { st with tasks_failed := st.tasks_failed + 1 })) := by
  refine ⟨?_, ?_, ?_, ?_⟩
  · intro hnone
    simp [process_message, hnone]
  · intro h e hfind herr
    simp [process_message, hfind, herr]
  · intro hnone
    simp [agent_execute_task, hnone]
  · intro h e hfind herr
    simp [agent_execute_task, hfind, herr]

/-- C9 witness: with a raising heartbeat handler and a raising
text-processing task handler, both entry points return failure values
with the exception contained. -/
theorem C9_handler_exceptions_contained_witness :
    process_message C9state C9msg 0 = (false, C9state) ∧
    agent_execute_task C9state C9task 0 =
      ({ success := false, error := some "kaput" },
       { C9state with tasks_failed := C9state.tasks_failed + 1 }) :=
  ⟨(C9_handler_exceptions_contained C9state C9msg C9task 0).2.1
      (MessageType.heartbeat, fun _ => .error "boom") "boom" rfl rfl,
   (C9_handler_exceptions_contained C9state C9msg C9task 0).2.2.2
      (fun _ => .error "kaput") "kaput" rfl rfl⟩

/-! ### C10: no-handler failures do not touch the metrics -/

/-- C10: when no required capability of the task has a registered
handler, `BaseAgent.execute_task` returns the structured
"No handler found for required capabilities" failure and leaves the
agent state — in particular `tasks_completed`, `tasks_failed`,
`response_times` and hence the computed success rate — unchanged;
whereas a raising handler increments `tasks_failed`. -/
theorem C10_no_handler_failure_frame (st : AgentState) (t : Task) (elapsed : ℚ) :
    (agentFindHandler st.task_handlers t.required_capabilities = none →
      agent_execute_task st t elapsed =
        ({ success := false,
           error := some "No handler found for required capabilities" }, st) ∧
      (agent_execute_task st t elapsed).2.tasks_completed = st.tasks_completed ∧
      (agent_execute_task st t elapsed).2.tasks_failed = st.tasks_failed ∧
      (agent_execute_task st t elapsed).2.response_times = st.response_times ∧
      calculate_success_rate (agent_execute_task st t elapsed).2 =
        calculate_success_rate st) ∧
    (∀ h e, agentFindHandler st.task_handlers t.required_capabilities = some h →
      h t.parameters = .error e →
      (agent_execute_task st t elapsed).2.tasks_failed = st.tasks_failed + 1) := by
  constructor
  · intro hnone
    have heq : agent_execute_task st t elapsed =
        ({ success := false,
           error := some "No handler found for required capabilities" }, st) := by
      simp [agent_execute_task, hnone]
    rw [heq]
    exact ⟨rfl, rfl, rfl, rfl, rfl⟩
  · intro h e hfind herr
    simp [agent_execute_task, hfind, herr]

/-- C10 witness: a task requiring only `data_analysis` against an
agent with no task handlers and metrics (3 completed, 1 failed). -/
theorem C10_no_handler_failure_frame_witness :
    agent_execute_task C10state C10task 0 =
      ({ success := false,
         error := some "No handler found for required capabilities" }, C10state) ∧
    (agent_execute_task C10state C10task 0).2.tasks_completed =
      C10state.tasks_completed ∧
    (agent_execute_task C10state C10task 0).2.tasks_failed =
      C10state.tasks_failed ∧
    (agent_execute_task C10state C10task 0).2.response_times =
      C10state.response_times ∧
    calculate_success_rate (agent_execute_task C10state C10task 0).2 =
      calculate_success_rate C10state :=
  (C10_no_handler_failure_frame C10state C10task 0).1 rfl

/-! ### C1: the lenient complete path versus the strict execute path -/

theorem find?_replace_self (tasks : List Task) (t t2 : Task)
    (ht : tasks.find? (fun x => x.task_id = t2.task_id) = some t) :
    (tasks.map (fun x => if x.task_id = t2.task_id then t2 else x)).find?
      (fun x => x.task_id = t2.task_id) = some t2 := by
  induction tasks with
  | nil => simp at ht
  | cons y ys ih =>
    by_cases hy : y.task_id = t2.task_id
    · simp [List.find?, hy]
    · rw [List.find?_cons_of_neg _ (by simp [hy])] at ht
      simp only [List.map_cons, if_neg hy]
      rw [List.find?_cons_of_neg _ (by simp [hy])]
      exact ih ht

theorem tmGet_tmPut_self (tasks : List Task) (t t2 : Task)
    (ht : tasks.find? (fun x => x.task_id = t2.task_id) = some t) :
    (tmPut tasks t2).find? (fun x => x.task_id = t2.task_id) = some t2 := by
  have hmem := List.mem_of_find?_eq_some ht
  have hpred := List.find?_some ht
  have hany : tasks.any (fun x => x.task_id = t2.task_id) = true :=
    List.any_eq_true.2 ⟨t, hmem, hpred⟩
  rw [tmPut, if_pos hany]
  exact find?_replace_self tasks t t2 ht

/-- C1 (amended): `TaskManager.complete_task` performs no guard — on
any existing task, whatever its status or assignee, it returns `True`
and overwrites the status to `completed` — while the strict checks
live in `TaskManager.execute_task`, which fails without modifying any
state when the task is not `in_progress` or is assigned to a different
agent. -/
theorem C1_complete_lenient_execute_strict (s : TMState)
    (handlers : List (String × THandler)) (tid aid : String) (res : PMap)
    (now elapsed : ℚ) (t : Task) (ht : tmGet s tid = some t) :
    (complete_task s tid res aid now).1 = true ∧
    tmGet (complete_task s tid res aid now).2 tid =
      some { t with status := .completed, updated_at := now, result := some res } ∧
    (t.status ≠ .in_progress →
      tm_execute_task s handlers tid aid now elapsed =
        ({ success := false,
           error := some ("Task is not in progress (status: " ++
             t.status.value ++ ")") }, s)) ∧
    (t.status = .in_progress → t.assigned_to ≠ some aid →
      tm_execute_task s handlers tid aid now elapsed =
        ({ success := false, error := some "Task not assigned to this agent" }, s)) := by
  have htid : t.task_id = tid := by
    have := List.find?_some ht
    simpa using this
  refine ⟨?_, ?_, ?_, ?_⟩
  · simp [complete_task, update_task_status, ht]
  · have hcomp : (complete_task s tid res aid now).2.tasks =
        tmPut s.tasks
          { t with status := .completed, updated_at := now, result := some res } := by
      simp [complete_task, update_task_status, ht]
    have hput := tmGet_tmPut_self s.tasks t
      { t with status := .completed, updated_at := now, result := some res }
      (by simpa [htid] using ht)
    unfold tmGet
    rw [hcomp]
    simpa [htid] using hput
  · intro hstatus
    simp [tm_execute_task, ht, hstatus]
  · intro hstatus hassigned
    simp [tm_execute_task, ht, hstatus, hassigned]

/-- C1 witness: on the concrete one-task manager, completion by an
agent that never held the (pending) task succeeds and rewrites it, and
the strict execute path refuses the same call without changing
anything. -/
theorem C1_complete_lenient_execute_strict_witness :
    (complete_task C1state "t1" [] "agent-x" 5).1 = true ∧
    tmGet (complete_task C1state "t1" [] "agent-x" 5).2 "t1" =
      some { C1taskW with status := .completed, updated_at := 5, result := some [] } ∧
    (C1taskW.status ≠ .in_progress →
      tm_execute_task C1state [] "t1" "agent-x" 5 0 =
        ({ success := false,
           error := some ("Task is not in progress (status: " ++
             C1taskW.status.value ++ ")") }, C1state)) ∧
    (C1taskW.status = .in_progress → C1taskW.assigned_to ≠ some "agent-x" →
      tm_execute_task C1state [] "t1" "agent-x" 5 0 =
        ({ success := false,
           error := some "Task not assigned to this agent" }, C1state)) :=
  C1_complete_lenient_execute_strict C1state [] "t1" "agent-x" [] 5 0 C1taskW rfl

/-- C1 counterexample: the claim says completing a pending,
never-assigned task fails and leaves it unchanged; in the code
`complete_task` returns `True` and marks the task completed. -/
theorem C1_counterexample_complete_pending_succeeds :
    (tmGet C1state "t1").map (fun t => (t.status, t.assigned_to)) =
      some (.pending, none) ∧
    (complete_task C1state "t1" [] "agent-x" 5).1 = true ∧
    (tmGet (complete_task C1state "t1" [] "agent-x" 5).2 "t1").map
      (fun t => t.status) = some .completed := by
  refine ⟨rfl, rfl, rfl⟩

/-! ### C4: the assigned/status invariant -/

theorem assigned_status_ok_congr (t₁ t₂ : Task)
    (hs : t₁.status = t₂.status) (ha : t₁.assigned_to = t₂.assigned_to) :
    assigned_status_ok t₁ = assigned_status_ok t₂ := by
  simp only [assigned_status_ok, hs, ha]

theorem all_tmPut (tasks : List Task) (p : Task → Bool) (t : Task)
    (hall : tasks.all p = true) (hp : p t = true) :
    (tmPut tasks t).all p = true := by
  rw [tmPut]
  by_cases hany : tasks.any (fun x => x.task_id = t.task_id) = true
  · rw [if_pos hany]
    rw [List.all_eq_true] at hall ⊢
    intro x hx
    obtain ⟨y, hy, hxy⟩ := List.mem_map.1 hx
    by_cases hcase : y.task_id = t.task_id
    · rw [if_pos hcase] at hxy
      rw [← hxy]
      exact hp
    · rw [if_neg hcase] at hxy
      rw [← hxy]
      exact hall y hy
  · rw [if_neg hany]
    rw [List.all_append]
    simp [hall, hp]

theorem update_task_status_preserves_inv (s : TMState) (tid : String)
    (st : TaskStatus) (kw : TMKwargs) (now : ℚ) (hinv : tmInv s = true)
    (hok : ∀ t, tmGet s tid = some t →
      assigned_status_ok
        { t with status := st, assigned_to := kw.assigned_to.getD t.assigned_to } =
        true) :
    tmInv (update_task_status s tid st kw now).2 = true := by
  cases h : tmGet s tid with
  | none => simpa [update_task_status, h] using hinv
  | some t =>
    have hok2 := hok t h
    simp only [update_task_status, h]
    rw [tmInv]
    refine all_tmPut s.tasks assigned_status_ok _ hinv ?_
    exact Eq.trans
      (assigned_status_ok_congr _
        { t with status := st, assigned_to := kw.assigned_to.getD t.assigned_to }
        rfl rfl)
      hok2


theorem tmStep_preserves_inv (s : TMState) (op : TMOp) (now : ℚ)
    (hinv : tmInv s = true) (hg : stepGuard s op = true) :
    tmInv (tmStep s op now) = true := by
  cases op with
  | create tid title descr caps creator params prio dl =>
    simp only [tmStep, create_task]
    rw [tmInv]
    exact all_tmPut s.tasks assigned_status_ok _ hinv rfl
  | assign tid aid =>
    refine update_task_status_preserves_inv s tid _ _ now hinv ?_
    intro t _
    rfl
  | complete tid res aid =>
    refine update_task_status_preserves_inv s tid _ _ now hinv ?_
    intro t h
    rw [stepGuard, h] at hg
    simpa [assigned_status_ok] using hg
  | fail tid err aid =>
    refine update_task_status_preserves_inv s tid _ _ now hinv ?_
    intro t h
    rw [stepGuard, h] at hg
    simpa [assigned_status_ok] using hg
  | cancel tid reason =>
    refine update_task_status_preserves_inv s tid _ _ now hinv ?_
    intro t _
    rfl
  | update tid st2 kw =>
    refine update_task_status_preserves_inv s tid _ _ now hinv ?_
    intro t h
    rw [stepGuard, h] at hg
    exact hg

/-- C4 (amended): the invariant "assigned_to is set iff status is
in_progress, completed or failed, except that cancelled tasks may be
either" is preserved by every trace of TaskManager operations in which
`complete`/`fail` only target currently assigned (or missing) tasks
and raw status updates respect the invariant; the unguarded claim is
refuted separately. -/
theorem C4_assigned_iff_status_invariant (s : TMState) (ops : List (TMOp × ℚ))
    (hinv : tmInv s = true) (hg : runGuard s ops = true) :
    tmInv (tmRun s ops) = true := by
  induction ops generalizing s with
  | nil => simpa [tmRun] using hinv
  | cons p rest ih =>
    obtain ⟨op, now⟩ := p
    rw [runGuard, Bool.and_eq_true] at hg
    have hstep := tmStep_preserves_inv s op now hinv hg.1
    have : tmRun s ((op, now) :: rest) = tmRun (tmStep s op now) rest := rfl
    rw [this]
    exact ih _ hstep hg.2

/-- C4 witness: the guarded trace create → assign → complete keeps the
invariant. -/
theorem C4_assigned_iff_status_invariant_witness :
    tmInv ⟨[], []⟩ = true ∧ runGuard ⟨[], []⟩ C4okOps = true ∧
    tmInv (tmRun ⟨[], []⟩ C4okOps) = true :=
  ⟨rfl, rfl, C4_assigned_iff_status_invariant ⟨[], []⟩ C4okOps rfl rfl⟩

/-- C4 counterexample: the claim quantifies over every operation
sequence, but create → complete (never assigned) reaches a task with
status `completed` and `assigned_to = none`, violating the claimed
iff. -/
theorem C4_counterexample_complete_unassigned :
    (tmGet (tmRun ⟨[], []⟩ C4ops) "t1").map (fun t => (t.status, t.assigned_to)) =
      some (.completed, none) ∧
    tmInv (tmRun ⟨[], []⟩ C4ops) = false :=
  ⟨rfl, rfl⟩

/-! ### C2 and C5: discovery -/

/-- C2 (amended): discovery membership is characterized by being among
the first `max_results` items evaluated by the scan AND passing the
conjunctive filter; every returned agent satisfies all of the
individual predicates (all required capabilities, case-insensitive
location when given, all tags, active status when `active_only`); and
`optional_capabilities` never influence the result.  The unamended
"appears iff the predicates hold" is refuted separately: the scan
limit is applied before the filter. -/
theorem C2_discovery_conjunctive (store : Store) (q : DiscoveryQuery) :
    (∀ it : Item, it ∈ discover_agents store q ↔
      it ∈ store.take q.max_results ∧ matchesQuery q it = true) ∧
    (∀ it ∈ discover_agents store q,
      (∀ c ∈ q.required_capabilities, it.capability_types.contains c.value = true) ∧
      (∀ l, q.location = some l → ¬(l = "") → it.location_index = some l.toLower) ∧
      (∀ tg ∈ q.tags, it.tag_attrs.contains tg.toLower = true) ∧
      (q.active_only = true → it.status = "active")) ∧
    (∀ opts, discover_agents store { q with optional_capabilities := opts } =
      discover_agents store q) := by
  have hmem : ∀ it : Item, it ∈ discover_agents store q ↔
      it ∈ store.take q.max_results ∧ matchesQuery q it = true := by
    intro it
    rw [discover_agents, mem_sortDescBy, List.mem_filter]
  refine ⟨hmem, ?_, ?_⟩
  · intro it hit
    have hm : matchesQuery q it = true := ((hmem it).1 hit).2
    rw [matchesQuery, Bool.and_eq_true, Bool.and_eq_true, Bool.and_eq_true] at hm
    obtain ⟨⟨⟨hcaps, hloc⟩, htags⟩, hactive⟩ := hm
    refine ⟨?_, ?_, ?_, ?_⟩
    · intro c hc
      exact List.all_eq_true.1 hcaps c hc
    · intro l hl hne
      rw [hl] at hloc
      simpa [hne] using hloc
    · intro tg htg
      exact List.all_eq_true.1 htags tg htg
    · intro hao
      rw [hao] at hactive
      simpa using hactive
  · intro opts
    cases q
    rfl

/-- C2 witness: for a store that fits inside the scan limit, the
characterization puts the matching item in the results and yields all
filter predicates for it. -/
theorem C2_discovery_conjunctive_witness :
    (C2item1 ∈ discover_agents [C2item1] C2queryBig ↔
      C2item1 ∈ [C2item1].take C2queryBig.max_results ∧
      matchesQuery C2queryBig C2item1 = true) ∧
    C2item1 ∈ discover_agents [C2item1] C2queryBig ∧
    (∀ c ∈ C2queryBig.required_capabilities,
      C2item1.capability_types.contains c.value = true) :=
  ⟨(C2_discovery_conjunctive [C2item1] C2queryBig).1 C2item1,
   ((C2_discovery_conjunctive [C2item1] C2queryBig).1 C2item1).2 ⟨by decide, rfl⟩,
   ((C2_discovery_conjunctive [C2item1] C2queryBig).2.1 C2item1
     (((C2_discovery_conjunctive [C2item1] C2queryBig).1 C2item1).2
       ⟨by decide, rfl⟩)).1⟩

/-- C2 counterexample: `agent-1` holds the required capability (and
the query has no other predicates), yet it does not appear in the
results, because the scan evaluates only the first `max_results = 1`
items before filtering.  This refutes "A appears in the returned
agents if and only if R ⊆ C ...". -/
theorem C2_counterexample_scan_limit :
    matchesQuery C2query C2item1 = true ∧
    C2item1 ∈ [C2item0, C2item1] ∧
    C2item1 ∉ discover_agents [C2item0, C2item1] C2query := by
  refine ⟨rfl, by simp, ?_⟩
  have h : discover_agents [C2item0, C2item1] C2query = [] := rfl
  rw [h]
  simp

/-- C5 (amended): discovery returns at most `max_results` agents,
sorted by `last_seen` descending; and when the whole table fits within
the scan limit no matching agent is omitted.  The unamended claim —
truncation happens after matching, so no matching agent is omitted
while fewer than `max_results` are returned — is refuted separately:
`Limit` bounds the items scanned before the filter runs. -/
theorem C5_discovery_truncation_order (store : Store) (q : DiscoveryQuery) :
    (discover_agents store q).length ≤ q.max_results ∧
    (discover_agents store q).Pairwise (fun a b => b.last_seen ≤ a.last_seen) ∧
    (store.length ≤ q.max_results →
      ∀ it ∈ store, matchesQuery q it = true → it ∈ discover_agents store q) := by
  refine ⟨?_, ?_, ?_⟩
  · rw [discover_agents]
    rw [(sortDescBy_perm (fun it : Item => it.last_seen)
      ((store.take q.max_results).filter (matchesQuery q))).length_eq]
    calc ((store.take q.max_results).filter (matchesQuery q)).length
        ≤ (store.take q.max_results).length := List.length_filter_le _ _
      _ ≤ q.max_results := by
          rw [List.length_take]
          exact min_le_left _ _
  · exact sortDescBy_sorted _ _
  · intro hlen it hmem hmatch
    rw [discover_agents, mem_sortDescBy, List.mem_filter]
    rw [List.take_of_length_le hlen]
    exact ⟨hmem, hmatch⟩

/-- C5 witness: a one-item store inside the scan limit keeps its
matching item, which is returned within the bound and in sorted
order. -/
theorem C5_discovery_truncation_order_witness :
    (discover_agents [C5item1] C5queryBig).length ≤ C5queryBig.max_results ∧
    C5item1 ∈ discover_agents [C5item1] C5queryBig :=
  ⟨(C5_discovery_truncation_order [C5item1] C5queryBig).1,
   (C5_discovery_truncation_order [C5item1] C5queryBig).2.2 (by decide) C5item1
     (by decide) rfl⟩

/-- C5 counterexample: `agent-5b` matches the query, the result list
is empty (strictly fewer than `max_results = 1` agents), and yet the
matching agent is omitted — the scan limit was exhausted by the
non-matching first item before the filter ran. -/
theorem C5_counterexample_limit_before_filter :
    matchesQuery C5query C5item1 = true ∧
    C5item1 ∈ [C5item0, C5item1] ∧
    (discover_agents [C5item0, C5item1] C5query).length < C5query.max_results ∧
    C5item1 ∉ discover_agents [C5item0, C5item1] C5query := by
  have h : discover_agents [C5item0, C5item1] C5query = [] := rfl
  refine ⟨rfl, by simp, ?_, ?_⟩
  · rw [h]
    decide
  · rw [h]
    simp

/-! ### C3: registration as an upsert -/

theorem find?_map_const_self (store : Store) (it : Item)
    (hany : store.any (fun x => x.agent_id = it.agent_id) = true) :
    (store.map (fun x => if x.agent_id = it.agent_id then it else x)).find?
      (fun x => x.agent_id = it.agent_id) = some it := by
  induction store with
  | nil => simp at hany
  | cons y ys ih =>
    by_cases hy : y.agent_id = it.agent_id
    · simp [List.find?, hy]
    · rw [List.any_cons, Bool.or_eq_true] at hany
      have htail : ys.any (fun x => x.agent_id = it.agent_id) = true := by
        rcases hany with h | h
        · exact absurd (of_decide_eq_true h) hy
        · exact h
      simp only [List.map_cons, if_neg hy]
      rw [List.find?_cons_of_neg _ (by simp [hy])]
      exact ih htail

theorem filter_map_const_self (store : Store) (it : Item)
    (hany : store.any (fun x => x.agent_id = it.agent_id) = true)
    (hnd : (store.map (fun x => x.agent_id)).Nodup) :
    (store.map (fun x => if x.agent_id = it.agent_id then it else x)).filter
      (fun x => x.agent_id = it.agent_id) = [it] := by
  induction store with
  | nil => simp at hany
  | cons y ys ih =>
    rw [List.map_cons, List.nodup_cons] at hnd
    by_cases hy : y.agent_id = it.agent_id
    · simp only [List.map_cons, if_pos hy]
      rw [List.filter_cons_of_pos (by simp)]
      have htail : (ys.map (fun x =>
          if x.agent_id = it.agent_id then it else x)).filter
          (fun x => x.agent_id = it.agent_id) = [] := by
        rw [List.filter_eq_nil_iff]
        intro a ha
        obtain ⟨x, hx, hxa⟩ := List.mem_map.1 ha
        have hxne : ¬(x.agent_id = it.agent_id) := by
          intro hxe
          exact hnd.1 (List.mem_map.2 ⟨x, hx, by rw [hxe, ← hy]⟩)
        rw [if_neg hxne] at hxa
        rw [← hxa]
        simp [hxne]
      rw [htail]
    · rw [List.any_cons, Bool.or_eq_true] at hany
      have htail : ys.any (fun x => x.agent_id = it.agent_id) = true := by
        rcases hany with h | h
        · exact absurd (of_decide_eq_true h) hy
        · exact h
      simp only [List.map_cons, if_neg hy]
      rw [List.filter_cons_of_neg (by simp [hy])]
      exact ih htail hnd.2

theorem find?_putItem_self (store : Store) (it : Item) (key : String)
    (hk : it.agent_id = key) :
    (putItem store it).find? (fun x => x.agent_id = key) = some it := by
  subst hk
  rw [putItem]
  by_cases hany : store.any (fun x => x.agent_id = it.agent_id) = true
  · rw [if_pos hany]
    exact find?_map_const_self store it hany
  · rw [if_neg hany]
    have hnone : store.find? (fun x => x.agent_id = it.agent_id) = none := by
      rw [List.find?_eq_none]
      intro x hx hpx
      exact hany (List.any_eq_true.2 ⟨x, hx, hpx⟩)
    rw [List.find?_append, hnone]
    simp [List.find?]

theorem filter_putItem_self (store : Store) (it : Item) (key : String)
    (hk : it.agent_id = key)
    (hnd : (store.map (fun x => x.agent_id)).Nodup) :
    (putItem store it).filter (fun x => x.agent_id = key) = [it] := by
  subst hk
  rw [putItem]
  by_cases hany : store.any (fun x => x.agent_id = it.agent_id) = true
  · rw [if_pos hany]
    exact filter_map_const_self store it hany hnd
  · rw [if_neg hany]
    rw [List.filter_append]
    have hstore : store.filter (fun x => x.agent_id = it.agent_id) = [] := by
      rw [List.filter_eq_nil_iff]
      intro a ha hpa
      exact hany (List.any_eq_true.2 ⟨a, ha, hpa⟩)
    rw [hstore]
    simp [List.filter]

theorem nodup_keys_putItem (store : Store) (it : Item)
    (hnd : (store.map (fun x => x.agent_id)).Nodup) :
    ((putItem store it).map (fun x => x.agent_id)).Nodup := by
  rw [putItem]
  by_cases hany : store.any (fun x => x.agent_id = it.agent_id) = true
  · rw [if_pos hany]
    have hkeys : (store.map (fun x =>
        if x.agent_id = it.agent_id then it else x)).map (fun x => x.agent_id) =
        store.map (fun x => x.agent_id) := by
      rw [List.map_map]
      apply List.map_congr_left
      intro x _
      by_cases hx : x.agent_id = it.agent_id
      · simp [Function.comp, hx]
      · simp [Function.comp, hx]
    rw [hkeys]
    exact hnd
  · rw [if_neg hany]
    rw [List.map_append, List.nodup_append]
    refine ⟨hnd, List.nodup_singleton _, ?_⟩
    intro k hk hk2
    obtain ⟨x, hx, hxk⟩ := List.mem_map.1 hk
    simp only [List.map_cons, List.map_nil, List.mem_singleton] at hk2
    exact hany (List.any_eq_true.2 ⟨x, hx, by simp [hxk, hk2]⟩)

/-- C3 (amended): registering the same `agent_id` twice (both calls
valid) leaves exactly one record for that id, and the record is the
full item built from the SECOND card — capabilities are the second
call's set (not a union), `status` is `active`, `last_seen` is the
second call's registration time, and `created_at` is the second
card's `created_at`, NOT preserved from the first registration. -/
theorem C3_register_upsert (store : Store) (c1 c2 : AgentCard) (n1 n2 : ℚ)
    (h1 : validate_agent_card c1 = []) (h2 : validate_agent_card c2 = [])
    (_hid : c1.agent_id = c2.agent_id)
    (hnd : (store.map (fun x => x.agent_id)).Nodup) :
    ((register_agent (register_agent store c1 n1).2 c2 n2).2.filter
      (fun x => x.agent_id = c2.agent_id)) = [itemOfCard c2 n2] ∧
    getAgent (register_agent (register_agent store c1 n1).2 c2 n2).2 c2.agent_id =
      some (itemOfCard c2 n2) ∧
    (itemOfCard c2 n2).capabilities = c2.capabilities ∧
    (itemOfCard c2 n2).created_at = c2.created_at ∧
    (itemOfCard c2 n2).status = "active" ∧
    (itemOfCard c2 n2).last_seen = n2 := by
  have hs1 : (register_agent store c1 n1).2 = putItem store (itemOfCard c1 n1) := by
    simp [register_agent, h1]
  have hs2 : (register_agent (putItem store (itemOfCard c1 n1)) c2 n2).2 =
      putItem (putItem store (itemOfCard c1 n1)) (itemOfCard c2 n2) := by
    simp [register_agent, h2]
  have hnd1 : ((putItem store (itemOfCard c1 n1)).map (fun x => x.agent_id)).Nodup :=
    nodup_keys_putItem store (itemOfCard c1 n1) hnd
  rw [hs1, hs2]
  refine ⟨?_, ?_, rfl, rfl, rfl, rfl⟩
  · exact filter_putItem_self _ (itemOfCard c2 n2) c2.agent_id rfl hnd1
  · exact find?_putItem_self _ (itemOfCard c2 n2) c2.agent_id rfl

/-- C3 witness: two concrete valid registrations of `agent-r`. -/
theorem C3_register_upsert_witness :
    ((register_agent (register_agent [] C3card1 1).2 C3card2 2).2.filter
      (fun x => x.agent_id = C3card2.agent_id)) = [itemOfCard C3card2 2] ∧
    getAgent (register_agent (register_agent [] C3card1 1).2 C3card2 2).2
      C3card2.agent_id = some (itemOfCard C3card2 2) ∧
    (itemOfCard C3card2 2).capabilities = C3card2.capabilities ∧
    (itemOfCard C3card2 2).created_at = C3card2.created_at ∧
    (itemOfCard C3card2 2).status = "active" ∧
    (itemOfCard C3card2 2).last_seen = 2 :=
  C3_register_upsert [] C3card1 C3card2 1 2 (by decide) (by decide) rfl
    List.nodup_nil

/-- C3 counterexample: the claim says `created_at` is preserved from
the first registration; in the code the stored `created_at` after the
second registration is the second card's value (100), not the first
card's (0). -/
theorem C3_counterexample_created_at_not_preserved :
    validate_agent_card C3card1 = [] ∧
    validate_agent_card C3card2 = [] ∧
    (getAgent (register_agent (register_agent [] C3card1 1).2 C3card2 2).2
      "agent-r").map (fun it => it.created_at) = some 100 ∧
    ¬((100 : ℚ) = 0) ∧
    (getAgent (register_agent (register_agent [] C3card1 1).2 C3card2 2).2
      "agent-r").map (fun it => it.capability_types) = some ["data_analysis"] := by
  refine ⟨by decide, by decide, by decide, by norm_num, by decide⟩

/-! ### C8: heartbeat isolation -/

theorem find?_map_applied (store : Store) (aid : String) (it : Item)
    (g : Item → Item) (hfind : store.find? (fun x => x.agent_id = aid) = some it)
    (hg : ∀ x, (g x).agent_id = x.agent_id) :
    (store.map (fun x => if x.agent_id = aid then g x else x)).find?
      (fun x => x.agent_id = aid) = some (g it) := by
  induction store with
  | nil => simp at hfind
  | cons y ys ih =>
    by_cases hy : y.agent_id = aid
    · rw [List.find?_cons_of_pos _ (by simp [hy])] at hfind
      simp only [List.map_cons, if_pos hy]
      rw [List.find?_cons_of_pos _ (by simp [hg, hy])]
      rw [Option.some_inj.1 hfind]
    · rw [List.find?_cons_of_neg _ (by simp [hy])] at hfind
      simp only [List.map_cons, if_neg hy]
      rw [List.find?_cons_of_neg _ (by simp [hy])]
      exact ih hfind

theorem heartbeat_applyUpdates (x : Item) (v now : ℚ) :
    applyUpdates x { last_seen := some v } now = { x with last_seen := now } := by
  simp [applyUpdates]

/-- C8: a heartbeat on a registered agent succeeds and rewrites the
store so that the target record changes only in `last_seen` (stamped
with the current time) and every other record is untouched; moreover
any update supplying `last_seen` stores the current time regardless of
the caller-supplied value. -/
theorem C8_heartbeat_isolation (store : Store) (aid : String) (it : Item)
    (now : ℚ) (hfind : getAgent store aid = some it) :
    (update_agent_heartbeat store aid now).1 = .ok ∧
    (update_agent_heartbeat store aid now).2 =
      store.map (fun x => if x.agent_id = aid then { x with last_seen := now } else x) ∧
    getAgent (update_agent_heartbeat store aid now).2 aid =
      some { it with last_seen := now } ∧
    (∀ u : Updates, ∀ v : ℚ, u.last_seen = some v →
      (applyUpdates it u now).last_seen = now) := by
  have hany : store.any (fun x => x.agent_id = aid) = true := by
    rw [getAgent] at hfind
    have hpred := List.find?_some hfind
    have hmem := List.mem_of_find?_eq_some hfind
    exact List.any_eq_true.2 ⟨it, hmem, hpred⟩
  have hmap : (update_agent_heartbeat store aid now).2 =
      store.map (fun x => if x.agent_id = aid then { x with last_seen := now } else x) := by
    rw [update_agent_heartbeat, update_agent, if_pos hany]
    have hfun : (fun x => if x.agent_id = aid then
        applyUpdates x { last_seen := some now } now else x) =
        (fun x => if x.agent_id = aid then { x with last_seen := now } else x) := by
      funext x
      by_cases hx : x.agent_id = aid
      · rw [if_pos hx, if_pos hx, heartbeat_applyUpdates]
      · rw [if_neg hx, if_neg hx]
    rw [hfun]
  refine ⟨?_, hmap, ?_, ?_⟩
  · rw [update_agent_heartbeat, update_agent, if_pos hany]
  · rw [hmap]
    exact find?_map_applied store aid it
      (fun x => { x with last_seen := now }) hfind (fun x => rfl)
  · intro u v hv
    simp [applyUpdates, hv]

/-- C8 witness: heartbeat on a concrete one-record store at time 9. -/
theorem C8_heartbeat_isolation_witness :
    (update_agent_heartbeat [C8item] "agent-h" 9).1 = .ok ∧
    (update_agent_heartbeat [C8item] "agent-h" 9).2 =
      [C8item].map (fun x =>
        if x.agent_id = "agent-h" then { x with last_seen := 9 } else x) ∧
    getAgent (update_agent_heartbeat [C8item] "agent-h" 9).2 "agent-h" =
      some { C8item with last_seen := 9 } ∧
    (∀ u : Updates, ∀ v : ℚ, u.last_seen = some v →
      (applyUpdates C8item u 9).last_seen = 9) :=
  C8_heartbeat_isolation [C8item] "agent-h" C8item 9 rfl

end A2A
